import Mathlib

/-!
Verification of the routing decision engine of the azure_ai_router library.
The repository ships only a demonstration script (demo.py); the engine it
exercises (ModelRouter, Classifier, Catalog, Registry, Decision Cache,
AuthConfig) is specified in spec.md.  The definitions below embed that
engine, keeping the names the demonstration script uses.
-/

deriving instance DecidableEq for Except

namespace AzureRouter

/-- Modelled from the spec: the closed tagged variant of authentication
modes (the azure_ai_router AuthConfig.auth_type values are missing from
the visible source). -/
inductive AuthType where
  | api_key
  | entra_id
  | managed_identity
deriving DecidableEq

/-- Modelled from the spec: configuration-time error taxonomy of the
missing azure_ai_router library. -/
inductive ConfigError where
  | duplicateName
  | danglingReference
  | invalidAuthDescriptor
deriving DecidableEq

/-- Modelled from the spec: the AuthConfig constructor fields shown in
demo.py; three mutually exclusive auth shapes are inferred from which
fields are present. -/
structure AuthConfig where
  api_key : Option String := none
  client_id : Option String := none
  client_secret : Option String := none
  tenant_id : Option String := none
  use_managed_identity : Bool := false
deriving DecidableEq

/-- Modelled from the spec: how many of the three mutually exclusive
auth signals are present on an AuthConfig. -/
def AuthConfig.signalCount (a : AuthConfig) : Nat :=
  (if a.api_key.isSome then 1 else 0) +
  (if a.client_id.isSome || a.client_secret.isSome || a.tenant_id.isSome then 1 else 0) +
  (if a.use_managed_identity then 1 else 0)

/-- Modelled from the spec: the auth variant is inferred from which
constructor fields are populated, invalid if zero or more than one
signal is present (validated at load time). -/
def AuthConfig.auth_type (a : AuthConfig) : Except ConfigError AuthType :=
  if a.signalCount ≠ 1 then .error .invalidAuthDescriptor
  else if a.api_key.isSome then .ok .api_key
  else if a.use_managed_identity then .ok .managed_identity
  else if a.client_id.isSome && a.client_secret.isSome && a.tenant_id.isSome then .ok .entra_id
  else .error .invalidAuthDescriptor

/-- Modelled from the spec: a configured model deployment, with the
constructor fields demo.py passes to ModelConfig. -/
structure ModelConfig where
  endpoint : String
  deployment_name : String
  api_version : String
  auth : AuthConfig
  temperature : Option ℚ := none
deriving DecidableEq

/-- Modelled from the spec: the Deployment Registry, a name-keyed pool of
deployments in registration order. -/
abbrev Registry := List (String × ModelConfig)

/-- Modelled from the spec: Registry lookup by name. -/
def resolve (r : Registry) (name : String) : Option ModelConfig :=
  (r.find? (fun e => e.1 == name)).map (fun e => e.2)

/-- Modelled from the spec: a declared routing rule, with the constructor
fields demo.py passes to UseCase (model_name is the target deployment). -/
structure UseCase where
  name : String
  description : String := ""
  model_name : String
  priority : Int
  keywords : List String
  min_confidence : ℚ
deriving DecidableEq

/-- Modelled from the spec: Catalog registration fails with DuplicateName
on a repeated name and with DanglingReference when the target deployment
is unresolvable against the Registry; on success the use case is appended
(registration order is kept). -/
def registerUseCase (r : Registry) (cat : List UseCase) (uc : UseCase) :
    Except ConfigError (List UseCase) :=
  if cat.any (fun v => v.name == uc.name) then .error .duplicateName
  else if (resolve r uc.model_name).isNone then .error .danglingReference
  else .ok (cat ++ [uc])

/-- Modelled from the spec: stateful view of registration, returning the
catalog after the call (unchanged on failure) together with the error. -/
def registerStep (r : Registry) (cat : List UseCase) (uc : UseCase) :
    List UseCase × Option ConfigError :=
  match registerUseCase r cat uc with
  | .ok c => (c, none)
  | .error e => (cat, some e)

/-- Register the given use cases in order on top of an already-loaded
catalog, failing on the first configuration error. -/
def buildCatalogAux (r : Registry) (acc : List UseCase) :
    List UseCase → Except ConfigError (List UseCase)
  | [] => .ok acc
  | uc :: ucs =>
    match registerUseCase r acc uc with
    | .ok acc2 => buildCatalogAux r acc2 ucs
    | .error e => .error e

/-- Modelled from the spec: loading a whole Catalog by registering the
use cases in order into an empty catalog, failing on the first
configuration error. -/
def buildCatalog (r : Registry) (ucs : List UseCase) :
    Except ConfigError (List UseCase) :=
  buildCatalogAux r [] ucs

/-- Modelled from the spec: one conversation turn, as demo.py builds
messages with a role and a content string. -/
structure Message where
  role : String
  content : String
deriving DecidableEq

/-- Accumulate space-separated words of an already-lowercased character
sequence; the second argument holds the current word reversed. -/
def splitWordsAux : List Char → List Char → List String
  | [], acc => if acc.isEmpty then [] else [String.mk acc.reverse]
  | c :: cs, acc =>
    if c = ' ' then
      if acc.isEmpty then splitWordsAux cs []
      else String.mk acc.reverse :: splitWordsAux cs []
    else splitWordsAux cs (c :: acc)

/-- Modelled from the spec: normalization of conversation text to
lowercase tokens (whitespace-separated words). -/
def tokenize (text : String) : List String :=
  splitWordsAux (text.toList.map Char.toLower) []

/-- Modelled from the spec: normalized lowercase tokens of the
concatenation of all turns of a conversation. -/
def tokensOf (conv : List Message) : List String :=
  (conv.map (fun msg => tokenize msg.content)).flatten

/-- Modelled from the spec: the number of keywords of a use case that
occur among the tokens. -/
def matchedCount (toks : List String) (uc : UseCase) : Nat :=
  (uc.keywords.filter (fun k => decide (k ∈ toks))).length

/-- Modelled from the spec: Classifier score of one use case, the raw
keyword-overlap ratio matched / number of keywords. -/
def scoreTokens (toks : List String) (uc : UseCase) : ℚ :=
  if uc.keywords.isEmpty then 0
  else (matchedCount toks uc : ℚ) / (uc.keywords.length : ℚ)

/-- Modelled from the spec: the Classifier contract, a full score map
from use-case name to confidence over the Catalog. -/
def scoreMap (catalog : List UseCase) (toks : List String) : List (String × ℚ) :=
  catalog.map (fun uc => (uc.name, scoreTokens toks uc))

/-- Modelled from the spec: the routing result returned to the caller,
with the fields demo.py reads. -/
structure RoutingResult where
  model_name : String
  confidence : ℚ
  use_case : Option UseCase
  model_config : ModelConfig
  reasoning : String
deriving DecidableEq

/-- Modelled from the spec: routing-time errors; unknownDeployment is the
internal invariant-violation error of step 6, never expected for a
validly loaded configuration. -/
inductive RouteError where
  | emptyConversation
  | unknownDeployment (name : String)
deriving DecidableEq

/-- Modelled from the spec: the immutable configuration snapshot handed
to the Router (Registry, Catalog, default deployment name). -/
structure RouterConfig where
  models : Registry
  use_cases : List UseCase
  default_model : String
deriving DecidableEq

/-- Modelled from the spec: the use cases whose score clears their own
minimum confidence, in registration order. -/
def candidates (cfg : RouterConfig) (toks : List String) : List UseCase :=
  cfg.use_cases.filter (fun uc => decide (uc.min_confidence ≤ scoreTokens toks uc))

/-- Modelled from the spec: the selection key, priority first and score
second, compared lexicographically. -/
def selectionKey (toks : List String) (uc : UseCase) : Lex (Int × ℚ) :=
  toLex (uc.priority, scoreTokens toks uc)

/-- Modelled from the spec: the pure routing decision; validate
non-emptiness, score, filter by threshold, pick the winner by highest
priority then highest score then earliest registration, resolve the
winning deployment, fall back to the default deployment on an empty
candidate set. -/
def route (cfg : RouterConfig) (conv : List Message) :
    Except RouteError RoutingResult :=
  if conv = [] then .error .emptyConversation
  else
    let toks := tokensOf conv
    match (candidates cfg toks).argmax (selectionKey toks) with
    | some w =>
      match resolve cfg.models w.model_name with
      | some mc =>
        .ok ⟨w.model_name, scoreTokens toks w, some w, mc,
          "matched use case " ++ w.name⟩
      | none => .error (.unknownDeployment w.model_name)
    | none =>
      match resolve cfg.models cfg.default_model with
      | some mc =>
        .ok ⟨cfg.default_model, 0, none, mc,
          "no use case cleared its confidence threshold"⟩
      | none => .error (.unknownDeployment cfg.default_model)

/-- Modelled from the spec: the Router instance state, a configuration
snapshot plus the optional Decision Cache. -/
structure Router where
  config : RouterConfig
  enable_caching : Bool
  cache : List (List String × RoutingResult)
deriving DecidableEq

/-- Modelled from the spec: the cache key, a stable fingerprint of the
normalized conversation text. -/
def fingerprint (conv : List Message) : List String :=
  tokensOf conv

/-- Modelled from the spec: Decision Cache lookup. -/
def cacheLookup (cache : List (List String × RoutingResult))
    (fp : List String) : Option RoutingResult :=
  (cache.find? (fun e => e.1 == fp)).map (fun e => e.2)

/-- Modelled from the spec: the outcome of one stateful route call, the
result, the Router state after the call, and how often the Classifier
was invoked during the call. -/
structure RouteOutcome where
  result : Except RouteError RoutingResult
  router : Router
  classifier_calls : Nat
deriving DecidableEq

/-- Modelled from the spec: the stateful route entry point demo.py calls;
validate, consult the cache on an enabled cache, on a miss invoke the
Classifier through the pure decision and record the decision. -/
def route_conversation (r : Router) (conv : List Message) : RouteOutcome :=
  if conv = [] then ⟨.error .emptyConversation, r, 0⟩
  else
    match (if r.enable_caching then cacheLookup r.cache (fingerprint conv) else none) with
    | some res => ⟨.ok res, r, 0⟩
    | none =>
      match route r.config conv with
      | .ok res =>
        if r.enable_caching then
          ⟨.ok res, { r with cache := (fingerprint conv, res) :: r.cache }, 1⟩
        else ⟨.ok res, r, 1⟩
      | .error e => ⟨.error e, r, 1⟩

/-- Modelled from the spec: reconfigure atomically swaps in a new
configuration snapshot and clears the Decision Cache. -/
def reconfigure (r : Router) (cfg : RouterConfig) : Router :=
  { config := cfg, enable_caching := r.enable_caching, cache := [] }

/-- Every cache entry records the pure routing decision of the current
configuration for every conversation with that fingerprint. -/
def cacheConsistent (r : Router) : Prop :=
  ∀ fp res, (fp, res) ∈ r.cache →
    ∀ conv : List Message, conv ≠ [] → fingerprint conv = fp →
      route r.config conv = .ok res

end AzureRouter

namespace AzureRouter

theorem scoreTokens_eq_of_ne_nil {toks : List String} {uc : UseCase}
    (hne : uc.keywords ≠ []) :
    scoreTokens toks uc = (matchedCount toks uc : ℚ) / (uc.keywords.length : ℚ) := by
  rw [scoreTokens, if_neg]
  simp [List.isEmpty_iff, hne]

theorem matchedCount_eq_card {toks : List String} {uc : UseCase}
    (hnd : uc.keywords.Nodup) :
    (matchedCount toks uc : ℚ) = ((uc.keywords.toFinset ∩ toks.toFinset).card : ℚ) := by
  have h1 : (uc.keywords.filter (fun k => decide (k ∈ toks))).toFinset =
      uc.keywords.toFinset ∩ toks.toFinset := by
    ext x
    simp [List.mem_toFinset, List.mem_filter, Finset.mem_inter]
  have h2 : (uc.keywords.filter (fun k => decide (k ∈ toks))).toFinset.card =
      (uc.keywords.filter (fun k => decide (k ∈ toks))).length :=
    List.toFinset_card_of_nodup (hnd.filter _)
  rw [matchedCount, ← h2, h1]

end AzureRouter

namespace AzureRouter

/-- C1: for every conversation token list and every use case in the
catalog, the Classifier score map assigns that use case the overlap
ratio, namely the size of the intersection of the conversation tokens
with the keyword set divided by the number of keywords (so 0 when the
intersection is empty), and the score lies in [0, 1]. -/
theorem classifier_score_spec (catalog : List UseCase) (toks : List String)
    (uc : UseCase) (hmem : uc ∈ catalog) (hne : uc.keywords ≠ [])
    (hnd : uc.keywords.Nodup) :
    (uc.name, scoreTokens toks uc) ∈ scoreMap catalog toks ∧
    scoreTokens toks uc =
      ((uc.keywords.toFinset ∩ toks.toFinset).card : ℚ) / (uc.keywords.length : ℚ) ∧
    0 ≤ scoreTokens toks uc ∧ scoreTokens toks uc ≤ 1 := by
  have hlen : (0 : ℚ) < (uc.keywords.length : ℚ) := by
    exact_mod_cast List.length_pos.mpr hne
  have hformula := @scoreTokens_eq_of_ne_nil toks uc hne
  have hcount : matchedCount toks uc ≤ uc.keywords.length :=
    List.length_filter_le _ _
  refine ⟨List.mem_map_of_mem _ hmem, ?_, ?_, ?_⟩
  · rw [hformula, matchedCount_eq_card hnd]
  · rw [hformula]
    exact div_nonneg (Nat.cast_nonneg _) (Nat.cast_nonneg _)
  · rw [hformula, div_le_one hlen]
    exact_mod_cast hcount

/-- C10: the auth variant of an AuthConfig is inferred from which
constructor fields are populated; only an api_key gives the api_key
type, the client_id, client_secret and tenant_id triple gives the Entra
ID type, and use_managed_identity gives the managed identity type. -/
theorem auth_type_inference (k cid cs t : String) :
    AuthConfig.auth_type { api_key := some k } = .ok .api_key ∧
    AuthConfig.auth_type
      { client_id := some cid, client_secret := some cs, tenant_id := some t } =
      .ok .entra_id ∧
    AuthConfig.auth_type { use_managed_identity := true } = .ok .managed_identity :=
  ⟨rfl, rfl, rfl⟩

end AzureRouter

namespace AzureRouter

theorem mem_candidates {cfg : RouterConfig} {toks : List String} {uc : UseCase} :
    uc ∈ candidates cfg toks ↔
      uc ∈ cfg.use_cases ∧ uc.min_confidence ≤ scoreTokens toks uc := by
  simp [candidates, List.mem_filter]

/-- C2: a use case whose computed score is strictly below its own
minimum confidence is never returned as the matched use case of a
routing decision. -/
theorem threshold_enforcement (cfg : RouterConfig) (conv : List Message)
    (uc : UseCase) (res : RoutingResult)
    (hlt : scoreTokens (tokensOf conv) uc < uc.min_confidence)
    (hres : route cfg conv = .ok res) :
    res.use_case ≠ some uc := by
  intro hcase
  simp only [route] at hres
  split at hres
  · exact Except.noConfusion hres
  · split at hres
    · rename_i w harg
      split at hres
      · rename_i mc hmc
        cases hres
        have hwmem : w ∈ candidates cfg (tokensOf conv) :=
          List.argmax_mem (Option.mem_def.mpr harg)
        have hwu : w = uc := by injection hcase
        rw [hwu] at hwmem
        exact absurd (mem_candidates.mp hwmem).2 (not_le.mpr hlt)
      · exact Except.noConfusion hres
    · split at hres
      · cases hres
        exact Option.noConfusion hcase
      · exact Except.noConfusion hres

end AzureRouter

namespace AzureRouter

/-- C4: a non-empty conversation in which no use case reaches its own
minimum confidence routes to the configured default deployment with
confidence 0 and no matched use case. -/
theorem fallback_to_default (cfg : RouterConfig) (conv : List Message)
    (mc : ModelConfig) (hconv : conv ≠ [])
    (hdef : resolve cfg.models cfg.default_model = some mc)
    (hmiss : ∀ uc ∈ cfg.use_cases,
      scoreTokens (tokensOf conv) uc < uc.min_confidence) :
    route cfg conv =
      .ok ⟨cfg.default_model, 0, none, mc,
        "no use case cleared its confidence threshold"⟩ := by
  have hcand : candidates cfg (tokensOf conv) = [] := by
    rw [candidates, List.filter_eq_nil_iff]
    intro uc hmem
    simp only [decide_eq_true_eq, not_le]
    exact hmiss uc hmem
  simp only [route, if_neg hconv, hcand, List.argmax_nil, hdef]

theorem indexOf_filter_mono {α : Type} [DecidableEq α] {p : α → Bool} :
    ∀ {l : List α} {x y : α}, x ∈ l.filter p → y ∈ l.filter p →
      (l.filter p).indexOf x ≤ (l.filter p).indexOf y →
      l.indexOf x ≤ l.indexOf y := by
  intro l
  induction l with
  | nil => intro x y hx _ _; simp at hx
  | cons a l ih =>
    intro x y hx hy h
    by_cases hpa : p a
    · rw [List.filter_cons_of_pos hpa] at hx hy h
      by_cases hxa : x = a
      · subst hxa
        rw [List.indexOf_cons_self]
        exact Nat.zero_le _
      · have hx' : x ∈ l.filter p := by
          rcases List.mem_cons.mp hx with h1 | h1
          · exact absurd h1 hxa
          · exact h1
        by_cases hya : y = a
        · subst hya
          rw [List.indexOf_cons_self, List.indexOf_cons_ne _ (Ne.symm hxa)] at h
          exact absurd h (Nat.not_succ_le_zero _)
        · have hy' : y ∈ l.filter p := by
            rcases List.mem_cons.mp hy with h1 | h1
            · exact absurd h1 hya
            · exact h1
          rw [List.indexOf_cons_ne _ (Ne.symm hxa),
            List.indexOf_cons_ne _ (Ne.symm hya)] at h
          rw [List.indexOf_cons_ne _ (Ne.symm hxa),
            List.indexOf_cons_ne _ (Ne.symm hya)]
          exact Nat.succ_le_succ (ih hx' hy' (Nat.succ_le_succ_iff.mp h))
    · rw [List.filter_cons_of_neg hpa] at hx hy h
      have hxa : x ≠ a := by
        intro he
        subst he
        exact hpa (List.mem_filter.mp hx).2
      have hya : y ≠ a := by
        intro he
        subst he
        exact hpa (List.mem_filter.mp hy).2
      rw [List.indexOf_cons_ne _ (Ne.symm hxa), List.indexOf_cons_ne _ (Ne.symm hya)]
      exact Nat.succ_le_succ (ih hx hy h)

end AzureRouter

namespace AzureRouter

/-- C3: when the candidate set is non-empty, routing returns a winner
that every candidate compares below or equal on the lexicographic key
of priority then score, equal-key candidates never precede the winner
in catalog registration order, and every other candidate is strictly
below the winner in the three-level order, so the selection is a total
deterministic tie-break. -/
theorem tie_break_selection (cfg : RouterConfig) (conv : List Message)
    (hconv : conv ≠ [])
    (hwf : ∀ uc ∈ cfg.use_cases, (resolve cfg.models uc.model_name).isSome)
    (hne : candidates cfg (tokensOf conv) ≠ []) :
    ∃ w res, route cfg conv = .ok res ∧ res.use_case = some w ∧
      w ∈ candidates cfg (tokensOf conv) ∧
      (∀ u ∈ candidates cfg (tokensOf conv),
        u.priority < w.priority ∨
          (u.priority = w.priority ∧
            scoreTokens (tokensOf conv) u ≤ scoreTokens (tokensOf conv) w)) ∧
      (∀ u ∈ candidates cfg (tokensOf conv),
        u.priority = w.priority →
          scoreTokens (tokensOf conv) u = scoreTokens (tokensOf conv) w →
            cfg.use_cases.indexOf w ≤ cfg.use_cases.indexOf u) ∧
      (∀ u ∈ candidates cfg (tokensOf conv), u ≠ w →
        selectionKey (tokensOf conv) u < selectionKey (tokensOf conv) w ∨
          (selectionKey (tokensOf conv) u = selectionKey (tokensOf conv) w ∧
            cfg.use_cases.indexOf w < cfg.use_cases.indexOf u)) := by
  obtain ⟨w, harg⟩ : ∃ w,
      (candidates cfg (tokensOf conv)).argmax (selectionKey (tokensOf conv)) = some w := by
    cases hw : (candidates cfg (tokensOf conv)).argmax (selectionKey (tokensOf conv)) with
    | none => exact absurd (List.argmax_eq_none.mp hw) hne
    | some w => exact ⟨w, rfl⟩
  have hwmem : w ∈ candidates cfg (tokensOf conv) :=
    List.argmax_mem (Option.mem_def.mpr harg)
  have hwcat : w ∈ cfg.use_cases := (mem_candidates.mp hwmem).1
  obtain ⟨mc, hmc⟩ := Option.isSome_iff_exists.mp (hwf w hwcat)
  have hidx : ∀ u ∈ candidates cfg (tokensOf conv),
      u.priority = w.priority →
        scoreTokens (tokensOf conv) u = scoreTokens (tokensOf conv) w →
          cfg.use_cases.indexOf w ≤ cfg.use_cases.indexOf u := by
    intro u hu hp hs
    have hkey : selectionKey (tokensOf conv) w ≤ selectionKey (tokensOf conv) u := by
      apply (Prod.Lex.le_iff _ _).mpr
      exact Or.inr ⟨hp.symm, le_of_eq hs.symm⟩
    exact indexOf_filter_mono hwmem hu
      (List.index_of_argmax (Option.mem_def.mpr harg) hu hkey)
  refine ⟨w, ⟨w.model_name, scoreTokens (tokensOf conv) w, some w, mc,
    "matched use case " ++ w.name⟩, ?_, rfl, hwmem, ?_, hidx, ?_⟩
  · simp only [route, if_neg hconv, harg, hmc]
  · intro u hu
    exact (Prod.Lex.le_iff _ _).mp
      (List.le_of_mem_argmax hu (Option.mem_def.mpr harg))
  · intro u hu hne'
    have hle : selectionKey (tokensOf conv) u ≤ selectionKey (tokensOf conv) w :=
      List.le_of_mem_argmax hu (Option.mem_def.mpr harg)
    rcases lt_or_eq_of_le hle with hlt | heq
    · exact Or.inl hlt
    · refine Or.inr ⟨heq, ?_⟩
      have hucat : u ∈ cfg.use_cases := (mem_candidates.mp hu).1
      have hpair : (u.priority, scoreTokens (tokensOf conv) u) =
          (w.priority, scoreTokens (tokensOf conv) w) := by
        have := heq
        simpa [selectionKey, toLex_inj] using this
      have hple : cfg.use_cases.indexOf w ≤ cfg.use_cases.indexOf u :=
        hidx u hu (congrArg Prod.fst hpair) (congrArg Prod.snd hpair)
      refine lt_of_le_of_ne hple ?_
      intro hie
      exact hne' ((List.indexOf_inj hucat hwcat).mp hie.symm)

end AzureRouter

namespace AzureRouter

/-- C8: under a validly loaded configuration, route fails exactly on the
empty conversation and then with EmptyConversation; the error is
returned directly, never converted into a fallback decision, and no
other caller-input error exists. -/
theorem empty_conversation_only_error (cfg : RouterConfig)
    (conv : List Message) (e : RouteError)
    (hwf : ∀ uc ∈ cfg.use_cases, (resolve cfg.models uc.model_name).isSome)
    (hdef : (resolve cfg.models cfg.default_model).isSome) :
    route cfg conv = .error e ↔ conv = [] ∧ e = .emptyConversation := by
  constructor
  · intro hres
    simp only [route] at hres
    split at hres
    · rename_i hconv
      injection hres with h2
      exact ⟨hconv, h2.symm⟩
    · rename_i hconv
      split at hres
      · rename_i w harg
        split at hres
        · exact Except.noConfusion hres
        · rename_i hmc
          have hwcat : w ∈ cfg.use_cases :=
            (mem_candidates.mp (List.argmax_mem (Option.mem_def.mpr harg))).1
          have := hwf w hwcat
          rw [hmc] at this
          exact absurd this (by simp)
      · split at hres
        · exact Except.noConfusion hres
        · rename_i hmc
          rw [hmc] at hdef
          exact absurd hdef (by simp)
  · rintro ⟨rfl, rfl⟩
    rfl

theorem buildCatalogAux_resolvable (r : Registry) :
    ∀ (ucs acc cat' : List UseCase),
      (∀ u ∈ acc, (resolve r u.model_name).isSome) →
      buildCatalogAux r acc ucs = .ok cat' →
      ∀ u ∈ cat', (resolve r u.model_name).isSome := by
  intro ucs
  induction ucs with
  | nil =>
    intro acc cat' hacc hfold u hu
    injection hfold with h
    subst h
    exact hacc u hu
  | cons uc ucs ih =>
    intro acc cat' hacc hfold u hu
    rw [buildCatalogAux] at hfold
    cases hreg : registerUseCase r acc uc with
    | error e =>
      rw [hreg] at hfold
      exact Except.noConfusion hfold
    | ok acc2 =>
      rw [hreg] at hfold
      have hacc2 : ∀ v ∈ acc2, (resolve r v.model_name).isSome := by
        rw [registerUseCase] at hreg
        split at hreg
        · exact Except.noConfusion hreg
        · split at hreg
          · exact Except.noConfusion hreg
          · rename_i hres
            injection hreg with h
            subst h
            intro v hv
            rcases List.mem_append.mp hv with h1 | h1
            · exact hacc v h1
            · rw [List.mem_singleton] at h1
              subst h1
              cases hr : resolve r v.model_name with
              | some _ => rfl
              | none =>
                rw [hr] at hres
                exact absurd rfl hres
      exact ih acc2 cat' hacc2 hfold u hu

/-- C9: registering a use case whose target deployment is unresolvable
fails with DanglingReference and leaves the catalog unchanged, and
every catalog loaded through registration contains only use cases whose
target resolves against the Registry, so the route-time lookup of any
winner always succeeds. -/
theorem dangling_reference_rejected (r : Registry) (cat : List UseCase)
    (uc : UseCase) (hfresh : ∀ v ∈ cat, v.name ≠ uc.name)
    (hdang : resolve r uc.model_name = none) :
    registerStep r cat uc = (cat, some .danglingReference) ∧
    (∀ ucs cat', buildCatalog r ucs = .ok cat' →
      ∀ u ∈ cat', (resolve r u.model_name).isSome) := by
  constructor
  · have hany : cat.any (fun v => v.name == uc.name) = false := by
      rw [List.any_eq_false]
      intro v hv
      simpa using hfresh v hv
    rw [registerStep, registerUseCase, hany]
    simp [hdang]
  · intro ucs cat' hbuild
    exact buildCatalogAux_resolvable r ucs [] cat' (by simp) hbuild

end AzureRouter

namespace AzureRouter

theorem route_congr (cfg : RouterConfig) {conv conv2 : List Message}
    (h1 : conv ≠ []) (h2 : conv2 ≠ [])
    (htok : tokensOf conv2 = tokensOf conv) :
    route cfg conv2 = route cfg conv := by
  simp only [route, if_neg h1, if_neg h2, htok]

theorem cacheLookup_mem {cache : List (List String × RoutingResult)}
    {fp : List String} {res : RoutingResult}
    (h : cacheLookup cache fp = some res) : (fp, res) ∈ cache := by
  rw [cacheLookup] at h
  obtain ⟨e, hfind, he⟩ := Option.map_eq_some'.mp h
  have hp : e.1 = fp := by simpa using List.find?_some hfind
  have hmem := List.mem_of_find?_eq_some hfind
  have : e = (fp, res) := by
    cases e
    simp only at hp he
    rw [hp, he]
  rw [this] at hmem
  exact hmem

theorem rc_result_eq_route (r : Router) (conv : List Message)
    (hcons : cacheConsistent r) :
    (route_conversation r conv).result = route r.config conv := by
  by_cases hconv : conv = []
  · subst hconv
    simp [route_conversation, route]
  · simp only [route_conversation, if_neg hconv]
    cases hcache : (if r.enable_caching then cacheLookup r.cache (fingerprint conv) else none) with
    | some res =>
      have hsome : cacheLookup r.cache (fingerprint conv) = some res := by
        by_cases hb : r.enable_caching
        · rw [if_pos hb] at hcache
          exact hcache
        · rw [if_neg hb] at hcache
          exact Option.noConfusion hcache
      have hroute : route r.config conv = .ok res :=
        hcons _ _ (cacheLookup_mem hsome) conv hconv rfl
      rw [hroute]
    | none =>
      cases hroute : route r.config conv with
      | ok res =>
        by_cases hb : r.enable_caching <;> simp [hb]
      | error e => simp

theorem rc_router_fields (r : Router) (conv : List Message) :
    (route_conversation r conv).router.config = r.config ∧
    (route_conversation r conv).router.enable_caching = r.enable_caching := by
  rw [route_conversation]
  split
  · exact ⟨rfl, rfl⟩
  · split
    · exact ⟨rfl, rfl⟩
    · split
      · split
        · exact ⟨rfl, rfl⟩
        · exact ⟨rfl, rfl⟩
      · exact ⟨rfl, rfl⟩

theorem rc_preserves_consistent (r : Router) (conv : List Message)
    (hcons : cacheConsistent r) :
    cacheConsistent (route_conversation r conv).router := by
  rw [route_conversation]
  split
  · exact hcons
  · rename_i hconv
    split
    · exact hcons
    · split
      · rename_i res hroute
        split
        · intro fp res' hmem conv' hconv' hfp
          rcases List.mem_cons.mp hmem with h1 | h1
          · injection h1 with hfpq hres'
            subst hres'
            rw [route_congr r.config hconv hconv' (hfp.trans hfpq)]
            exact hroute
          · exact hcons fp res' h1 conv' hconv' hfp
        · exact hcons
      · exact hcons

end AzureRouter

namespace AzureRouter

theorem rc_router_eq_of_disabled (r : Router) (conv : List Message)
    (hc : r.enable_caching = false) :
    (route_conversation r conv).router = r := by
  rw [route_conversation]
  split
  · rfl
  · split
    · rfl
    · split
      · split
        · rename_i hb
          rw [hc] at hb
          exact Bool.noConfusion hb
        · rfl
      · rfl

theorem rc_result_disabled (r : Router) (conv : List Message)
    (hc : r.enable_caching = false) :
    (route_conversation r conv).result = route r.config conv := by
  by_cases hconv : conv = []
  · subst hconv
    simp [route_conversation, route]
  · simp only [route_conversation, if_neg hconv, hc]
    cases hroute : route r.config conv <;> simp [hroute]

/-- C5: with caching disabled, route is a deterministic pure function of
the configuration snapshot and the conversation; a call leaves the
Router unchanged and a repeated call returns the identical result. -/
theorem route_deterministic (r : Router) (conv : List Message)
    (hc : r.enable_caching = false) :
    (route_conversation r conv).router = r ∧
    (route_conversation r conv).result = route r.config conv ∧
    (route_conversation ((route_conversation r conv).router) conv).result =
      (route_conversation r conv).result := by
  have hrouter := rc_router_eq_of_disabled r conv hc
  refine ⟨hrouter, rc_result_disabled r conv hc, ?_⟩
  rw [hrouter]


theorem rc_hit (r : Router) (conv : List Message) (res : RoutingResult)
    (hconv : conv ≠ []) (hcache : r.enable_caching = true)
    (hhit : cacheLookup r.cache (fingerprint conv) = some res) :
    route_conversation r conv = ⟨.ok res, r, 0⟩ := by
  simp only [route_conversation, if_neg hconv, hcache, if_true, hhit]

theorem rc_cache_hit_after (r : Router) (conv : List Message)
    (res : RoutingResult) (hcons : cacheConsistent r)
    (hcache : r.enable_caching = true) (hconv : conv ≠ [])
    (hroute : route r.config conv = .ok res) :
    cacheLookup (route_conversation r conv).router.cache (fingerprint conv) =
      some res := by
  cases hlook : cacheLookup r.cache (fingerprint conv) with
  | some cres =>
    have hq : route r.config conv = .ok cres :=
      hcons _ _ (cacheLookup_mem hlook) conv hconv rfl
    rw [hroute] at hq
    injection hq with h
    subst h
    rw [rc_hit r conv res hconv hcache hlook]
    exact hlook
  | none =>
    simp only [route_conversation, if_neg hconv, hcache, if_true, hlook, hroute]
    have hfind : ((fingerprint conv, res) :: r.cache).find?
        (fun e => e.1 == fingerprint conv) = some (fingerprint conv, res) :=
      List.find?_cons_of_pos _ (by simp)
    rw [cacheLookup, hfind]
    rfl

/-- C6: with a consistent cache, the Router with caching enabled returns
exactly the result of the cache-disabled pure decision and preserves
cache consistency; moreover, once a call has produced a routing result,
a second call for any conversation with the same fingerprint returns
the identical result without invoking the Classifier. -/
theorem caching_refinement (r : Router) (conv conv2 : List Message)
    (hcons : cacheConsistent r) (hcache : r.enable_caching = true)
    (hconv2 : conv2 ≠ []) (hfp : fingerprint conv2 = fingerprint conv) :
    (route_conversation r conv).result = route r.config conv ∧
    cacheConsistent (route_conversation r conv).router ∧
    (∀ res, (route_conversation r conv).result = .ok res →
      (route_conversation (route_conversation r conv).router conv2).result =
        .ok res ∧
      (route_conversation
        (route_conversation r conv).router conv2).classifier_calls = 0) := by
  have hres := rc_result_eq_route r conv hcons
  refine ⟨hres, rc_preserves_consistent r conv hcons, ?_⟩
  intro res hok
  have hconv : conv ≠ [] := by
    intro h
    subst h
    simp [route_conversation] at hok
  have hroute : route r.config conv = .ok res := by
    rw [← hres]
    exact hok
  have hhit := rc_cache_hit_after r conv res hcons hcache hconv hroute
  have hfields := rc_router_fields r conv
  have hstep := rc_hit ((route_conversation r conv).router) conv2 res hconv2
    (hfields.2.trans hcache) (by rw [hfp]; exact hhit)
  rw [hstep]
  exact ⟨rfl, rfl⟩

/-- C7: reconfigure swaps in the new configuration snapshot and clears
the Decision Cache, so the next route call for any fingerprint is never
served from the old cache and recomputes against the new
configuration. -/
theorem reconfigure_invalidates_cache (r : Router) (cfg : RouterConfig)
    (conv : List Message) :
    (reconfigure r cfg).cache = [] ∧
    (reconfigure r cfg).config = cfg ∧
    (route_conversation (reconfigure r cfg) conv).result = route cfg conv := by
  refine ⟨rfl, rfl, ?_⟩
  have hcons : cacheConsistent (reconfigure r cfg) := by
    intro fp res h
    exact absurd h (List.not_mem_nil _)
  exact rc_result_eq_route (reconfigure r cfg) conv hcons

end AzureRouter

namespace AzureRouter

/-- Deployment mirroring the gpt-4o-mini entry of demo.py. -/
def mcA : ModelConfig :=
  ⟨"https://your-endpoint.openai.azure.com/", "gpt-4o-mini", "2024-02-01",
    { api_key := some "your-api-key" }, some (3/10)⟩

/-- Deployment mirroring the o1-mini entry of demo.py. -/
def mcB : ModelConfig :=
  ⟨"https://your-endpoint.openai.azure.com/", "o1-mini", "2024-02-01",
    { api_key := some "your-api-key" }, none⟩

/-- Registry holding the two demo deployments. -/
def demoRegistry : Registry := [("gpt-4o-mini", mcA), ("o1-mini", mcB)]

/-- Use case mirroring text_classification of demo.py. -/
def ucClassify : UseCase :=
  ⟨"text_classification", "", "gpt-4o-mini", 1, ["classify", "sentiment"], 7/10⟩

/-- Use case mirroring advanced_reasoning of demo.py. -/
def ucMath : UseCase :=
  ⟨"advanced_reasoning", "", "o1-mini", 2, ["math", "solve"], 1/2⟩

/-- Router configuration with the two demo use cases. -/
def demoConfig : RouterConfig :=
  ⟨demoRegistry, [ucClassify, ucMath], "gpt-4o-mini"⟩

/-- A mathematical conversation, as in demo.py. -/
def convMath : List Message := [⟨"user", "Solve this MATH problem"⟩]

/-- A conversation matching no keyword, as in demo.py. -/
def convWeather : List Message := [⟨"user", "what is the weather"⟩]

/-- The routing result of convMath under demoConfig. -/
def resMath : RoutingResult :=
  ⟨"o1-mini", 1, some ucMath, mcB, "matched use case advanced_reasoning"⟩

unseal Rat.mul Rat.inv Rat.add Rat.sub in
theorem classifier_score_spec_witness :
    (ucMath.name, scoreTokens ["solve", "this", "math", "problem"] ucMath) ∈
      scoreMap [ucClassify, ucMath] ["solve", "this", "math", "problem"] ∧
    scoreTokens ["solve", "this", "math", "problem"] ucMath =
      ((ucMath.keywords.toFinset ∩
        (["solve", "this", "math", "problem"] : List String).toFinset).card : ℚ) /
        (ucMath.keywords.length : ℚ) ∧
    0 ≤ scoreTokens ["solve", "this", "math", "problem"] ucMath ∧
    scoreTokens ["solve", "this", "math", "problem"] ucMath ≤ 1 :=
  classifier_score_spec [ucClassify, ucMath] ["solve", "this", "math", "problem"]
    ucMath (by decide) (by decide) (by decide)

unseal Rat.mul Rat.inv Rat.add Rat.sub in
theorem threshold_enforcement_witness : resMath.use_case ≠ some ucClassify :=
  threshold_enforcement demoConfig convMath ucClassify resMath
    (by decide) (by decide)

unseal Rat.mul Rat.inv Rat.add Rat.sub in
theorem tie_break_selection_witness :
    ∃ w res, route demoConfig convMath = .ok res ∧ res.use_case = some w ∧
      w ∈ candidates demoConfig (tokensOf convMath) ∧
      (∀ u ∈ candidates demoConfig (tokensOf convMath),
        u.priority < w.priority ∨
          (u.priority = w.priority ∧
            scoreTokens (tokensOf convMath) u ≤ scoreTokens (tokensOf convMath) w)) ∧
      (∀ u ∈ candidates demoConfig (tokensOf convMath),
        u.priority = w.priority →
          scoreTokens (tokensOf convMath) u = scoreTokens (tokensOf convMath) w →
            demoConfig.use_cases.indexOf w ≤ demoConfig.use_cases.indexOf u) ∧
      (∀ u ∈ candidates demoConfig (tokensOf convMath), u ≠ w →
        selectionKey (tokensOf convMath) u < selectionKey (tokensOf convMath) w ∨
          (selectionKey (tokensOf convMath) u = selectionKey (tokensOf convMath) w ∧
            demoConfig.use_cases.indexOf w < demoConfig.use_cases.indexOf u)) :=
  tie_break_selection demoConfig convMath (by decide) (by decide) (by decide)

unseal Rat.mul Rat.inv Rat.add Rat.sub in
theorem fallback_to_default_witness :
    route demoConfig convWeather =
      .ok ⟨demoConfig.default_model, 0, none, mcA,
        "no use case cleared its confidence threshold"⟩ :=
  fallback_to_default demoConfig convWeather mcA (by decide) (by decide) (by decide)

/-- The demo router with caching disabled. -/
def routerOff : Router := ⟨demoConfig, false, []⟩

/-- The demo router with caching enabled and an empty cache. -/
def routerOn : Router := ⟨demoConfig, true, []⟩

unseal Rat.mul Rat.inv Rat.add Rat.sub in
theorem route_deterministic_witness :
    (route_conversation routerOff convMath).router = routerOff ∧
    (route_conversation routerOff convMath).result =
      route routerOff.config convMath ∧
    (route_conversation ((route_conversation routerOff convMath).router)
        convMath).result =
      (route_conversation routerOff convMath).result :=
  route_deterministic routerOff convMath rfl

theorem caching_refinement_witness :
    (route_conversation routerOn convMath).result =
      route routerOn.config convMath :=
  (caching_refinement routerOn convMath convMath
    (fun fp res h => absurd h (List.not_mem_nil _)) rfl (by decide) rfl).1

theorem empty_conversation_only_error_witness :
    route demoConfig [] = .error .emptyConversation ↔
      ([] : List Message) = [] ∧
        RouteError.emptyConversation = RouteError.emptyConversation :=
  empty_conversation_only_error demoConfig [] .emptyConversation
    (by decide) (by decide)

/-- A use case whose target deployment is missing from the registry. -/
def ucBad : UseCase := ⟨"bad_case", "", "missing-model", 1, ["x"], 1/2⟩

theorem dangling_reference_rejected_witness :
    registerStep demoRegistry [] ucBad = ([], some ConfigError.danglingReference) :=
  (dangling_reference_rejected demoRegistry [] ucBad
    (by simp) (by decide)).1

end AzureRouter
